import Mathlib

/-!
Verification of the gocam frame pipeline (Linux V4L2 backend and snapshot
helper): a shallow embedding of the pixel-format normalizer (`convertFrame`),
the aspect-preserving resampler (`resampleYCbCr444Fill`), the driver's
miss/backoff protocol (`StartStream`'s capture loop), the one-slot delivery
channel, and the `SaveFramePNG` validity guard.

Conventions of the embedding:
- Go byte buffers are `List Nat`, each element a byte value.
- Go `int` values (widths, heights, strides) are unbounded `Int`; the code
  under verification guards all sizes well below any overflow.
- Go `/` on `int` is `Int.tdiv` (truncation toward zero) and `>>` on a
  possibly-negative `int` is `Int.fdiv _ 256` (arithmetic shift).
- Go `float64` aspect-ratio arithmetic is modelled as exact rational
  arithmetic over `ℚ`; Go's `int(x)` conversion is truncation toward zero.
- Buffer reads are routed through an abstract `read : Nat → Nat` function
  plus the buffer length `n`, so that independence from out-of-bounds bytes
  is a provable statement rather than an artifact of total list indexing.
-/

/-- A delivered frame: packed YCbCr 4:4:4 data with its dimensions
(Go `type Frame struct { Data []byte; Width, Height int }`). -/
structure Frame where
  data : List Nat
  width : Int
  height : Int
deriving DecidableEq, Repr

/-- V4L2 fourcc 'RGB3'. -/
def v4l2PixFmtRGB24 : Nat := 0x33424752
/-- V4L2 fourcc 'YUYV'. -/
def v4l2PixFmtYUYV : Nat := 0x56595559
/-- V4L2 fourcc 'NV12'. -/
def v4l2PixFmtNV12 : Nat := 0x3231564E
/-- V4L2 fourcc 'YUV3' (packed 4:4:4). -/
def v4l2PixFmtYUV24 : Nat := 0x33565559

/-- CIF width, the fixed bound on output resolution. -/
def cifWidth : Int := 352
/-- CIF height. -/
def cifHeight : Int := 288

/-- Go `clampToByte`: clamp an int to [0, 255] and convert to a byte. -/
def clampToByte (v : Int) : Nat :=
  if v < 0 then 0
  else if 255 < v then 255
  else v.toNat

/-- Outcome of one iteration of an imperative loop body: continue with the
updated state, `break` out of the loop keeping the state, or abort the whole
conversion (Go `return nil`). -/
inductive LoopStep (α : Type) where
  | cont (a : α)
  | brk (a : α)
  | fail
deriving DecidableEq

/-- Run a loop body over indices `0, 1, ..., k-1` with break and abort.
The `Bool` in the result records whether the loop was left via `break`. -/
def iterStep {α : Type} (f : Nat → α → LoopStep α) : Nat → α → Option (α × Bool)
  | 0, a => some (a, false)
  | k+1, a =>
    match iterStep f k a with
    | none => none
    | some (b, true) => some (b, true)
    | some (b, false) =>
      match f k b with
      | .cont c => some (c, false)
      | .brk c => some (c, true)
      | .fail => none

/-- Run a fallible loop body over indices `0, 1, ..., k-1`
(Go loop whose body may `return nil`). -/
def iterOpt {α : Type} (f : Nat → α → Option α) : Nat → α → Option α
  | 0, a => some a
  | k+1, a =>
    match iterOpt f k a with
    | none => none
    | some b => f k b

/-- Run a total loop body over indices `0, 1, ..., k-1`. -/
def iterN {α : Type} (f : Nat → α → α) : Nat → α → α
  | 0, a => a
  | k+1, a => f k (iterN f k a)

/-- The shared effective-stride computation of `convertFrame`:
`effectiveStride := stride`, defaulted to `rowBytes` when nonpositive, then
shrunk to `len(src) / lines` when `effectiveStride * lines` overruns the
buffer, failing if the shrunken stride cannot hold a row.  (The source guards
the shrinking step with `height > 0` in the packed branches; that test is
always true there because `convertFrame` already rejected `height <= 0`.) -/
def strideFix (stride : Int) (rowBytes lines n : Nat) : Option Nat :=
  let es0 : Nat := if stride ≤ 0 then rowBytes else stride.toNat
  if n < es0 * lines then
    let es1 := n / lines
    if es1 < rowBytes then none else some es1
  else some es0

/-- Inner-loop body of the packed-YUV444 branch of `convertFrame`: copy the
3-byte pixel `x` of row `y` (row starts at absolute offset `inStart`, holds
`rowBytes` bytes), breaking when either index check fails. -/
def yuv24Body (read : Nat → Nat) (rowBytes inStart w y : Nat) (x : Nat)
    (dst : List Nat) : LoopStep (List Nat) :=
  let si := x * 3
  let di := (y * w + x) * 3
  if rowBytes ≤ si + 2 ∨ dst.length ≤ di + 2 then .brk dst
  else .cont (((dst.set di (read (inStart + si))).set (di + 1)
      (read (inStart + si + 1))).set (di + 2) (read (inStart + si + 2)))

/-- Row `y` of the packed-YUV444 branch: reject rows that overrun the source,
then copy the `w` pixels. -/
def yuv24Row (read : Nat → Nat) (n rowBytes es w : Nat) (y : Nat)
    (dst : List Nat) : Option (List Nat) :=
  let inStart := y * es
  if n < inStart + rowBytes then none
  else (iterStep (yuv24Body read rowBytes inStart w y) w dst).map Prod.fst

/-- Per-pixel body of the NV12 branch of `convertFrame`: full-resolution luma
from the Y plane (a prefix of the source of `yPlaneSize` bytes), 2x2-shared
chroma from the interleaved UV plane that follows it. -/
def nv12Pix (read : Nat → Nat) (n es yPlaneSize w : Nat) (y : Nat) (x : Nat)
    (dst : List Nat) : LoopStep (List Nat) :=
  let yIdx := y * es + x
  if yPlaneSize ≤ yIdx then .fail
  else
    let lum := read yIdx
    let uvIdx := (y / 2) * es + (x / 2) * 2
    if n - yPlaneSize ≤ uvIdx + 1 then .fail
    else
      let cb := read (yPlaneSize + uvIdx)
      let cr := read (yPlaneSize + uvIdx + 1)
      let di := (y * w + x) * 3
      if dst.length ≤ di + 2 then .fail
      else .cont (((dst.set di lum).set (di + 1) cb).set (di + 2) cr)

/-- Row `y` of the NV12 branch. -/
def nv12Row (read : Nat → Nat) (n es yPlaneSize w : Nat) (y : Nat)
    (dst : List Nat) : Option (List Nat) :=
  (iterStep (nv12Pix read n es yPlaneSize w y) w dst).map Prod.fst

/-- Iteration `i` of the YUYV inner loop (pixel pair at `x = 2*i`): read the
4-byte group `[Y0, U, Y1, V]` and store the two pixels, each write guarded by
its own bounds check exactly as in the source. -/
def yuyvBody (read : Nat → Nat) (rowBytes inStart w y : Nat) (i : Nat)
    (dst : List Nat) : LoopStep (List Nat) :=
  let x := 2 * i
  let si := x * 2
  if rowBytes ≤ si + 3 then .brk dst
  else
    let y0 := read (inStart + si)
    let u := read (inStart + si + 1)
    let y1 := read (inStart + si + 2)
    let v := read (inStart + si + 3)
    let di0 := (y * w + x) * 3
    let dst1 := if di0 + 2 < dst.length then
        ((dst.set di0 y0).set (di0 + 1) u).set (di0 + 2) v
      else dst
    let dst2 := if x + 1 < w then
        let di1 := (y * w + x + 1) * 3
        if di1 + 2 < dst1.length then
          ((dst1.set di1 y1).set (di1 + 1) u).set (di1 + 2) v
        else dst1
      else dst1
    .cont dst2

/-- Row `y` of the YUYV branch; the inner loop steps `x` by 2,
so it runs `(w+1)/2` iterations. -/
def yuyvRow (read : Nat → Nat) (n rowBytes es w : Nat) (y : Nat)
    (dst : List Nat) : Option (List Nat) :=
  let inStart := y * es
  if n < inStart + rowBytes then none
  else (iterStep (yuyvBody read rowBytes inStart w y) ((w + 1) / 2) dst).map Prod.fst

/-- Inner-loop body of the RGB24 branch: fixed-point BT.601 conversion with
clamping.  Go's `>> 8` is an arithmetic shift, i.e. flooring division by 256. -/
def rgb24Body (read : Nat → Nat) (rowBytes inStart w y : Nat) (x : Nat)
    (dst : List Nat) : LoopStep (List Nat) :=
  let si := x * 3
  if rowBytes ≤ si + 2 then .brk dst
  else
    let r : Int := read (inStart + si)
    let g : Int := read (inStart + si + 1)
    let b : Int := read (inStart + si + 2)
    let lum := Int.fdiv (66 * r + 129 * g + 25 * b + 128) 256 + 16
    let cb := Int.fdiv (-38 * r - 74 * g + 112 * b + 128) 256 + 128
    let cr := Int.fdiv (112 * r - 94 * g - 18 * b + 128) 256 + 128
    let di := (y * w + x) * 3
    if dst.length ≤ di + 2 then .fail
    else .cont (((dst.set di (clampToByte lum)).set (di + 1)
        (clampToByte cb)).set (di + 2) (clampToByte cr))

/-- Row `y` of the RGB24 branch. -/
def rgb24Row (read : Nat → Nat) (n rowBytes es w : Nat) (y : Nat)
    (dst : List Nat) : Option (List Nat) :=
  let inStart := y * es
  if n < inStart + rowBytes then none
  else (iterStep (rgb24Body read rowBytes inStart w y) w dst).map Prod.fst

/-- Go `convertFrame`, with source-buffer access abstracted into a read
function `read` and the declared buffer length `n`: normalize a captured
frame of the declared pixel format into a tightly packed YCbCr 4:4:4 buffer,
or return `none` (Go `nil`, treated by the driver as a miss). -/
def convertFrameR (read : Nat → Nat) (n : Nat) (pixFmt : Nat)
    (width height stride : Int) : Option (List Nat) :=
  if width ≤ 0 ∨ height ≤ 0 then none
  else
    let dstSize := width * height * 3
    if dstSize ≤ 0 then none
    else
      let w := width.toNat
      let h := height.toNat
      let dst : List Nat := List.replicate dstSize.toNat 0
      if pixFmt = v4l2PixFmtYUV24 then
        let rowBytes := w * 3
        if rowBytes = 0 ∨ n < rowBytes then none
        else
          match strideFix stride rowBytes h n with
          | none => none
          | some es => iterOpt (yuv24Row read n rowBytes es w) h dst
      else if pixFmt = v4l2PixFmtNV12 then
        let rowBytesY := w
        if rowBytesY = 0 ∨ n < rowBytesY then none
        else
          let totalLines := h + h / 2
          match strideFix stride rowBytesY totalLines n with
          | none => none
          | some es =>
            let yPlaneSize := es * h
            if n < yPlaneSize then none
            else iterOpt (nv12Row read n es yPlaneSize w) h dst
      else if pixFmt = v4l2PixFmtYUYV then
        let rowBytes := w * 2
        if rowBytes = 0 ∨ n < rowBytes then none
        else
          match strideFix stride rowBytes h n with
          | none => none
          | some es => iterOpt (yuyvRow read n rowBytes es w) h dst
      else if pixFmt = v4l2PixFmtRGB24 then
        let rowBytes := w * 3
        if rowBytes = 0 ∨ n < rowBytes then none
        else
          match strideFix stride rowBytes h n with
          | none => none
          | some es => iterOpt (rgb24Row read n rowBytes es w) h dst
      else none

/-- Go `convertFrame` applied to a concrete byte buffer. -/
def convertFrame (src : List Nat) (pixFmt : Nat) (width height stride : Int) :
    Option (List Nat) :=
  convertFrameR (fun i => src.getD i 0) src.length pixFmt width height stride

/-- Go `int(x)` conversion of a float64 value, for the exact-rational model:
truncation toward zero. -/
def goTruncQ (q : ℚ) : Int := Int.tdiv q.num (q.den : Int)

/-- The centered, aspect-preserving crop region computed by
`resampleYCbCr444Fill` before its copy loop. -/
structure CropRect where
  cropW : Int
  cropH : Int
  srcX0 : Int
  srcY0 : Int
deriving DecidableEq, Repr

/-- The crop-region computation of `resampleYCbCr444Fill` (source lines
computing `cropW`, `cropH`, `srcX0`, `srcY0`): compare aspect ratios, shrink
one axis to match the destination aspect, clamp it into `[1, src]`, and
center the crop on that axis. -/
def cropParams (srcW srcH dstW dstH : Int) : CropRect :=
  let srcAspect : ℚ := (srcW : ℚ) / (srcH : ℚ)
  let dstAspect : ℚ := (dstW : ℚ) / (dstH : ℚ)
  if dstAspect < srcAspect then
    let cropH := srcH
    let cropW0 := goTruncQ ((srcH : ℚ) * dstAspect)
    let cropW1 := if srcW < cropW0 then srcW else cropW0
    let cropW2 := if cropW1 < 1 then 1 else cropW1
    ⟨cropW2, cropH, (srcW - cropW2).tdiv 2, 0⟩
  else
    let cropW := srcW
    let cropH0 := goTruncQ ((srcW : ℚ) / dstAspect)
    let cropH1 := if srcH < cropH0 then srcH else cropH0
    let cropH2 := if cropH1 < 1 then 1 else cropH1
    ⟨cropW, cropH2, 0, (srcH - cropH2).tdiv 2⟩

/-- One destination pixel `(dx, dy)` of the resampler's copy loop: map it to
the nearest source sample inside the crop region and copy the 3-byte pixel,
skipping (Go `continue`) when either index check fails. -/
def resamplePixel (src : List Nat) (srcW dstW : Int) (c : CropRect)
    (sy : Int) (dy : Nat) (dx : Nat) (dst : List Nat) : List Nat :=
  let sxRel := if 0 < dstW then ((dx : Int) * c.cropW).tdiv dstW else 0
  let sx0 := c.srcX0 + sxRel
  let sx := if srcW ≤ sx0 then srcW - 1 else sx0
  let srcIndex := (sy * srcW + sx) * 3
  let dstIndex := ((dy : Int) * dstW + (dx : Int)) * 3
  if (src.length : Int) ≤ srcIndex + 2 ∨ (dst.length : Int) ≤ dstIndex + 2 then dst
  else
    ((dst.set dstIndex.toNat (src.getD srcIndex.toNat 0)).set
        (dstIndex.toNat + 1) (src.getD (srcIndex.toNat + 1) 0)).set
      (dstIndex.toNat + 2) (src.getD (srcIndex.toNat + 2) 0)

/-- Destination row `dy` of the resampler's copy loop. -/
def resampleRow (src : List Nat) (srcW srcH dstW dstH : Int) (c : CropRect)
    (dy : Nat) (dst : List Nat) : List Nat :=
  let syRel := if 0 < dstH then ((dy : Int) * c.cropH).tdiv dstH else 0
  let sy0 := c.srcY0 + syRel
  let sy := if srcH ≤ sy0 then srcH - 1 else sy0
  iterN (resamplePixel src srcW dstW c sy dy) dstW.toNat dst

/-- Go `resampleYCbCr444Fill`: downsample a packed YCbCr444 buffer into
`dstW x dstH` with a centered aspect-preserving crop; return the source
buffer unchanged when it already fits within the destination bounds. -/
def resampleYCbCr444Fill (src : List Nat) (srcW srcH dstW dstH : Int) :
    Option (List Nat) :=
  if srcW ≤ 0 ∨ srcH ≤ 0 ∨ dstW ≤ 0 ∨ dstH ≤ 0 then none
  else if (src.length : Int) < srcW * srcH * 3 then none
  else if srcW ≤ dstW ∧ srcH ≤ dstH then some src
  else
    let dst : List Nat := List.replicate ((dstW * dstH * 3).toNat) 0
    let c := cropParams srcW srcH dstW dstH
    some (iterN (resampleRow src srcW srcH dstW dstH c) dstH.toNat dst)

/-- The write loop of the driver's `makeBlack`: starting at offset `i`
(always a multiple of 3), store `k` neutral pixels `[16, 128, 128]`. -/
def makeBlackAux : Nat → Nat → List Nat → List Nat
  | 0, _, buf => buf
  | k+1, i, buf => makeBlackAux k (i + 3) (((buf.set i 16).set (i + 1) 128).set (i + 2) 128)

/-- The buffer built by the driver's `makeBlack` for a byte size `s`:
a zeroed buffer overwritten with neutral-fill pixels by a loop stepping its
index by 3 while below `s` (hence `(s+2)/3` iterations). -/
def mkBlackBuf (s : Nat) : List Nat :=
  makeBlackAux ((s + 2) / 3) 0 (List.replicate s 0)

/-- Go `makeBlack` from the driver goroutine: `nil` when the requested size
is nonpositive, otherwise the neutral-fill buffer. -/
def makeBlack (size : Int) : Option (List Nat) :=
  if size ≤ 0 then none else some (mkBlackBuf size.toNat)

/-- Per-session configuration fixed by `StartStream` before its capture loop:
the negotiated pixel format, frame dimensions and stride. -/
structure StreamConfig where
  pixFmt : Nat
  frameW : Int
  frameH : Int
  stride : Int
deriving DecidableEq, Repr

/-- The logical output size chosen by `StartStream`: CIF when the source
exceeds CIF in at least one dimension, otherwise the native size. -/
def outDims (cfg : StreamConfig) : Int × Int :=
  if cifWidth < cfg.frameW ∨ cifHeight < cfg.frameH then (cifWidth, cifHeight)
  else (cfg.frameW, cfg.frameH)

/-- Go `sendBlack` (without the channel push): the neutral-fill frame the
driver synthesizes at the last known output bounds, or `none` when it cannot
(`sendBlack` returning false). -/
def sendBlackFrame (cfg : StreamConfig) : Option Frame :=
  if (outDims cfg).1 ≤ 0 ∨ (outDims cfg).2 ≤ 0 then none
  else
    match makeBlack ((outDims cfg).1 * (outDims cfg).2 * 3) with
    | none => none
    | some data => some ⟨data, (outDims cfg).1, (outDims cfg).2⟩

/-- Go `handleDrop`: count the miss; at or above the 30-miss threshold
additionally attempt to synthesize and push a neutral-fill frame.  The pair
is the new miss counter and the frame pushed this cycle, if any. -/
def handleDrop (cfg : StreamConfig) (misses : Nat) : Nat × Option Frame :=
  let m := misses + 1
  if 30 ≤ m then
    match sendBlackFrame cfg with
    | some f => (m, some f)
    | none => (m, none)
  else (m, none)

/-- What one fetch cycle of the driver loop observed.  `tryAgain` covers the
paths that retry without touching the miss counter (EAGAIN/EINTR from
dequeueing, or a buffer index out of range); `dqErr` is any other dequeue
failure; `gotFrame` carries the captured bytes of a dequeued buffer.
(Cancellation and a failed requeue terminate the loop and push nothing.) -/
inductive FetchOutcome where
  | tryAgain
  | dqErr
  | gotFrame (src : List Nat)
deriving DecidableEq

/-- The successful-path body of the driver loop (source lines from the
`convertFrame` call to the `Frame` construction): normalize, then downsample
to CIF when the source exceeds CIF; `none` when either step misses. -/
def processFrame (cfg : StreamConfig) (src : List Nat) : Option Frame :=
  match convertFrame src cfg.pixFmt cfg.frameW cfg.frameH cfg.stride with
  | none => none
  | some frameData =>
    if cifWidth < cfg.frameW ∨ cifHeight < cfg.frameH then
      match resampleYCbCr444Fill frameData cfg.frameW cfg.frameH cifWidth cifHeight with
      | none => none
      | some resampled => some ⟨resampled, cifWidth, cifHeight⟩
    else some ⟨frameData, cfg.frameW, cfg.frameH⟩

/-- One iteration of the driver's capture loop, as a function of the current
consecutive-miss counter and the fetch outcome.  Returns the new counter and
the frame pushed into the delivery channel this cycle, if any. -/
def driverStep (cfg : StreamConfig) (misses : Nat) : FetchOutcome → Nat × Option Frame
  | .tryAgain => (misses, none)
  | .dqErr => handleDrop cfg misses
  | .gotFrame src =>
    match processFrame cfg src with
    | none => handleDrop cfg misses
    | some f => (0, some f)

/-- Go `sendFrame` on the one-slot frame channel: deliver the frame if the
slot is free, otherwise discard the occupant and store the new frame. -/
def pushFrame (slot : Option Frame) (f : Frame) : Option Frame :=
  match slot with
  | none => some f
  | some _ => some f

/-- The consumer side of the one-slot channel: take the stored frame,
leaving the slot empty; `none` models a consumer that must block. -/
def popFrame (slot : Option Frame) : Option (Frame × Option Frame) :=
  match slot with
  | none => none
  | some f => some (f, none)

/-- The observable effect of Go `SaveFramePNG`: either an immediate
invalid-frame error (before any file is created) or a file write encoding
the given frame (PNG encoding itself is an external collaborator). -/
inductive SaveAction where
  | errorInvalid
  | encodePNG (frame : Frame)
deriving DecidableEq

/-- Go `SaveFramePNG`'s control flow on a frame: reject any frame violating
the canonical-length invariant before touching the filesystem. -/
def saveFramePNG (frame : Frame) : SaveAction :=
  if frame.width ≤ 0 ∨ frame.height ≤ 0 ∨
      (frame.data.length : Int) ≠ frame.width * frame.height * 3 then
    .errorInvalid
  else .encodePNG frame

/-- Follows the spec's words for the crop width in the wider-than-destination
case: "crop width to `round(h * dstAspect)` (clamped to `[1, w]`)". -/
def cropWidthSpec (srcW srcH dstW dstH : Int) : Int :=
  max 1 (min srcW (round ((srcH : ℚ) * ((dstW : ℚ) / (dstH : ℚ)))))

/-! ## Generic facts about the loop combinators -/

theorem getD_set_self (l : List Nat) (i : Nat) (a d : Nat) (h : i < l.length) :
    (l.set i a).getD i d = a := by
  simp [List.getD_eq_getElem?_getD, List.getElem?_set_self h]

theorem getD_set_ne (l : List Nat) (i j : Nat) (a d : Nat) (h : i ≠ j) :
    (l.set i a).getD j d = l.getD j d := by
  simp [List.getD_eq_getElem?_getD, List.getElem?_set_ne h]

/-- A loop-step result whose carried state (if any) has length `L`. -/
def stepKeepsLen (s : LoopStep (List Nat)) (L : Nat) : Prop :=
  ∀ b : List Nat, s = .cont b ∨ s = .brk b → b.length = L

theorem iterStep_length {f : Nat → List Nat → LoopStep (List Nat)} {L : Nat}
    (hf : ∀ i a, a.length = L → stepKeepsLen (f i a) L) :
    ∀ (k : Nat) (a b : List Nat) (fl : Bool), a.length = L →
      iterStep f k a = some (b, fl) → b.length = L := by
  intro k
  induction k with
  | zero =>
    intro a b fl ha h
    simp only [iterStep] at h
    cases h
    exact ha
  | succ k ih =>
    intro a b fl ha h
    simp only [iterStep] at h
    cases hk : iterStep f k a with
    | none => simp only [hk] at h; exact Option.noConfusion h
    | some p =>
      obtain ⟨c, flag⟩ := p
      have hc : c.length = L := ih a c flag ha hk
      simp only [hk] at h
      cases flag with
      | true =>
        simp only [Option.some.injEq, Prod.mk.injEq] at h
        rw [← h.1]; exact hc
      | false =>
        cases hfc : f k c with
        | cont e =>
          simp only [hfc, Option.some.injEq, Prod.mk.injEq] at h
          rw [← h.1]; exact hf k c hc e (Or.inl hfc)
        | brk e =>
          simp only [hfc, Option.some.injEq, Prod.mk.injEq] at h
          rw [← h.1]; exact hf k c hc e (Or.inr hfc)
        | fail => simp only [hfc] at h; exact Option.noConfusion h

theorem iterOpt_length {f : Nat → List Nat → Option (List Nat)} {L : Nat}
    (hf : ∀ i a b, a.length = L → f i a = some b → b.length = L) :
    ∀ (k : Nat) (a b : List Nat), a.length = L →
      iterOpt f k a = some b → b.length = L := by
  intro k
  induction k with
  | zero =>
    intro a b ha h
    simp only [iterOpt] at h
    cases h
    exact ha
  | succ k ih =>
    intro a b ha h
    simp only [iterOpt] at h
    cases hk : iterOpt f k a with
    | none => rw [hk] at h; cases h
    | some c =>
      rw [hk] at h
      exact hf k c b (ih a c ha hk) h

theorem iterN_length {f : Nat → List Nat → List Nat}
    (hf : ∀ i a, (f i a).length = a.length) :
    ∀ (k : Nat) (a : List Nat), (iterN f k a).length = a.length := by
  intro k
  induction k with
  | zero => intro a; rfl
  | succ k ih => intro a; simp only [iterN]; rw [hf, ih]

theorem iterStep_congr {α : Type} {f g : Nat → α → LoopStep α}
    (h : ∀ i a, f i a = g i a) : ∀ (k : Nat) (a : α), iterStep f k a = iterStep g k a := by
  intro k
  induction k with
  | zero => intro a; rfl
  | succ k ih =>
    intro a
    simp only [iterStep, ih a, h]

theorem iterOpt_congr {α : Type} {f g : Nat → α → Option α}
    (h : ∀ i a, f i a = g i a) : ∀ (k : Nat) (a : α), iterOpt f k a = iterOpt g k a := by
  intro k
  induction k with
  | zero => intro a; rfl
  | succ k ih =>
    intro a
    simp only [iterOpt, ih a, h]

/-! ## Length preservation through the normalizer -/

theorem yuv24Body_length (read : Nat → Nat) (rowBytes inStart w y x : Nat)
    (dst : List Nat) :
    stepKeepsLen (yuv24Body read rowBytes inStart w y x dst) dst.length := by
  intro b hb
  simp only [yuv24Body] at hb
  rcases hb with h | h
  · split at h
    · cases h
    · cases h; simp [List.length_set]
  · split at h
    · cases h; rfl
    · cases h

theorem nv12Pix_length (read : Nat → Nat) (n es yPlaneSize w y x : Nat)
    (dst : List Nat) :
    stepKeepsLen (nv12Pix read n es yPlaneSize w y x dst) dst.length := by
  intro b hb
  simp only [nv12Pix] at hb
  rcases hb with h | h
  · split at h
    · cases h
    · split at h
      · cases h
      · split at h
        · cases h
        · cases h; simp [List.length_set]
  · split at h
    · cases h
    · split at h
      · cases h
      · split at h
        · cases h
        · cases h

theorem yuyvBody_length (read : Nat → Nat) (rowBytes inStart w y i : Nat)
    (dst : List Nat) :
    stepKeepsLen (yuyvBody read rowBytes inStart w y i dst) dst.length := by
  intro b hb
  simp only [yuyvBody] at hb
  rcases hb with h | h
  · split at h
    · cases h
    · cases h
      split
      · split
        · split <;> simp [List.length_set]
        · split <;> simp [List.length_set]
      · split <;> simp [List.length_set]
  · split at h
    · cases h; rfl
    · cases h

theorem rgb24Body_length (read : Nat → Nat) (rowBytes inStart w y x : Nat)
    (dst : List Nat) :
    stepKeepsLen (rgb24Body read rowBytes inStart w y x dst) dst.length := by
  intro b hb
  simp only [rgb24Body] at hb
  rcases hb with h | h
  · split at h
    · cases h
    · split at h
      · cases h
      · cases h; simp [List.length_set]
  · split at h
    · cases h; rfl
    · split at h
      · cases h
      · cases h

theorem yuv24Row_length (read : Nat → Nat) (n rowBytes es w y : Nat)
    (dst out : List Nat) (h : yuv24Row read n rowBytes es w y dst = some out) :
    out.length = dst.length := by
  simp only [yuv24Row] at h
  split at h
  · exact Option.noConfusion h
  · cases hs : iterStep (yuv24Body read rowBytes (y * es) w y) w dst with
    | none => rw [hs] at h; exact Option.noConfusion h
    | some p =>
      rw [hs] at h
      cases h
      exact iterStep_length (fun i a ha => ha ▸ yuv24Body_length read rowBytes (y * es) w y i a)
        w dst p.1 p.2 rfl hs

theorem nv12Row_length (read : Nat → Nat) (n es yPlaneSize w y : Nat)
    (dst out : List Nat) (h : nv12Row read n es yPlaneSize w y dst = some out) :
    out.length = dst.length := by
  simp only [nv12Row] at h
  cases hs : iterStep (nv12Pix read n es yPlaneSize w y) w dst with
  | none => rw [hs] at h; exact Option.noConfusion h
  | some p =>
    rw [hs] at h
    cases h
    exact iterStep_length (fun i a ha => ha ▸ nv12Pix_length read n es yPlaneSize w y i a)
      w dst p.1 p.2 rfl hs

theorem yuyvRow_length (read : Nat → Nat) (n rowBytes es w y : Nat)
    (dst out : List Nat) (h : yuyvRow read n rowBytes es w y dst = some out) :
    out.length = dst.length := by
  simp only [yuyvRow] at h
  split at h
  · exact Option.noConfusion h
  · cases hs : iterStep (yuyvBody read rowBytes (y * es) w y) ((w + 1) / 2) dst with
    | none => rw [hs] at h; exact Option.noConfusion h
    | some p =>
      rw [hs] at h
      cases h
      exact iterStep_length (fun i a ha => ha ▸ yuyvBody_length read rowBytes (y * es) w y i a)
        ((w + 1) / 2) dst p.1 p.2 rfl hs

theorem rgb24Row_length (read : Nat → Nat) (n rowBytes es w y : Nat)
    (dst out : List Nat) (h : rgb24Row read n rowBytes es w y dst = some out) :
    out.length = dst.length := by
  simp only [rgb24Row] at h
  split at h
  · exact Option.noConfusion h
  · cases hs : iterStep (rgb24Body read rowBytes (y * es) w y) w dst with
    | none => rw [hs] at h; exact Option.noConfusion h
    | some p =>
      rw [hs] at h
      cases h
      exact iterStep_length (fun i a ha => ha ▸ rgb24Body_length read rowBytes (y * es) w y i a)
        w dst p.1 p.2 rfl hs

theorem convertFrameR_length (read : Nat → Nat) (n pixFmt : Nat)
    (width height stride : Int) (out : List Nat)
    (h : convertFrameR read n pixFmt width height stride = some out) :
    out.length = (width * height * 3).toNat := by
  simp only [convertFrameR] at h
  split at h
  · exact Option.noConfusion h
  · split at h
    · exact Option.noConfusion h
    · split at h
      · -- packed YUV444 branch
        split at h
        · exact Option.noConfusion h
        · split at h
          · exact Option.noConfusion h
          · have hlen := iterOpt_length
              (L := (List.replicate (width * height * 3).toNat 0).length)
              (fun i a b ha hr => (yuv24Row_length _ _ _ _ _ _ _ _ hr).trans ha)
              height.toNat _ out rfl h
            simpa using hlen
      · split at h
        · -- NV12 branch
          split at h
          · exact Option.noConfusion h
          · split at h
            · exact Option.noConfusion h
            · split at h
              · exact Option.noConfusion h
              · have hlen := iterOpt_length
                  (L := (List.replicate (width * height * 3).toNat 0).length)
                  (fun i a b ha hr => (nv12Row_length _ _ _ _ _ _ _ _ hr).trans ha)
                  height.toNat _ out rfl h
                simpa using hlen
        · split at h
          · -- YUYV branch
            split at h
            · exact Option.noConfusion h
            · split at h
              · exact Option.noConfusion h
              · have hlen := iterOpt_length
                  (L := (List.replicate (width * height * 3).toNat 0).length)
                  (fun i a b ha hr => (yuyvRow_length _ _ _ _ _ _ _ _ hr).trans ha)
                  height.toNat _ out rfl h
                simpa using hlen
          · split at h
            · -- RGB24 branch
              split at h
              · exact Option.noConfusion h
              · split at h
                · exact Option.noConfusion h
                · have hlen := iterOpt_length
                    (L := (List.replicate (width * height * 3).toNat 0).length)
                    (fun i a b ha hr => (rgb24Row_length _ _ _ _ _ _ _ _ hr).trans ha)
                    height.toNat _ out rfl h
                  simpa using hlen
            · exact Option.noConfusion h

/-- Length invariant of the normalizer on concrete buffers. -/
theorem convertFrame_length (src : List Nat) (pixFmt : Nat)
    (width height stride : Int) (out : List Nat)
    (h : convertFrame src pixFmt width height stride = some out) :
    out.length = (width * height * 3).toNat :=
  convertFrameR_length _ _ _ _ _ _ _ h

/-! ## The resampler: passthrough and exact output size -/

theorem resamplePixel_length (src : List Nat) (srcW dstW : Int) (c : CropRect)
    (sy : Int) (dy dx : Nat) (dst : List Nat) :
    (resamplePixel src srcW dstW c sy dy dx dst).length = dst.length := by
  simp only [resamplePixel]
  repeat' split
  all_goals simp [List.length_set]

theorem resampleRow_length (src : List Nat) (srcW srcH dstW dstH : Int)
    (c : CropRect) (dy : Nat) (dst : List Nat) :
    (resampleRow src srcW srcH dstW dstH c dy dst).length = dst.length := by
  simp only [resampleRow]
  exact iterN_length (fun i a => resamplePixel_length src srcW dstW c _ dy i a) _ dst

/-- Result classifier used in resampler statements: the call produced a frame
buffer of the given byte length (`none`, a miss, does not qualify). -/
def resLenOk : Option (List Nat) → Int → Prop
  | none, _ => False
  | some out, m => (out.length : Int) = m

/-- Resampler contract: passthrough (the identical buffer) when the source
fits within bounds on both axes, otherwise a buffer of exactly
`dstW * dstH * 3` bytes. -/
theorem resample_spec (src : List Nat) (srcW srcH dstW dstH : Int)
    (hW : 1 ≤ srcW) (hH : 1 ≤ srcH) (hDW : 1 ≤ dstW) (hDH : 1 ≤ dstH)
    (hlen : srcW * srcH * 3 ≤ (src.length : Int)) :
    (srcW ≤ dstW ∧ srcH ≤ dstH →
      resampleYCbCr444Fill src srcW srcH dstW dstH = some src)
    ∧ (¬(srcW ≤ dstW ∧ srcH ≤ dstH) →
      resLenOk (resampleYCbCr444Fill src srcW srcH dstW dstH) (dstW * dstH * 3)) := by
  have h1 : ¬(srcW ≤ 0 ∨ srcH ≤ 0 ∨ dstW ≤ 0 ∨ dstH ≤ 0) := by omega
  have h2 : ¬((src.length : Int) < srcW * srcH * 3) := by omega
  constructor
  · intro hc
    simp only [resampleYCbCr444Fill, if_neg h1, if_neg h2, if_pos hc]
  · intro hc
    simp only [resampleYCbCr444Fill, if_neg h1, if_neg h2, if_neg hc, resLenOk]
    rw [iterN_length (fun i a =>
      resampleRow_length src srcW srcH dstW dstH (cropParams srcW srcH dstW dstH) i a)]
    rw [List.length_replicate]
    have : (0 : Int) ≤ dstW * dstH * 3 := by positivity
    omega

/-! ## The neutral-fill buffer -/

theorem makeBlackAux_length : ∀ (k i : Nat) (buf : List Nat),
    (makeBlackAux k i buf).length = buf.length := by
  intro k
  induction k with
  | zero => intro i buf; rfl
  | succ k ih => intro i buf; simp [makeBlackAux, ih, List.length_set]

theorem makeBlackAux_getD_lt : ∀ (k i : Nat) (buf : List Nat) (j : Nat), j < i →
    (makeBlackAux k i buf).getD j 0 = buf.getD j 0 := by
  intro k
  induction k with
  | zero => intro i buf j _; rfl
  | succ k ih =>
    intro i buf j hj
    simp only [makeBlackAux]
    rw [ih (i + 3) _ j (by omega)]
    rw [getD_set_ne _ _ _ _ _ (by omega), getD_set_ne _ _ _ _ _ (by omega),
      getD_set_ne _ _ _ _ _ (by omega)]

theorem makeBlackAux_pattern : ∀ (k m : Nat) (buf : List Nat) (j : Nat),
    3 * m ≤ j → j < 3 * m + 3 * k → j < buf.length →
    (makeBlackAux k (3 * m) buf).getD j 0 = if j % 3 = 0 then 16 else 128 := by
  intro k
  induction k with
  | zero => intro m buf j h1 h2 _; omega
  | succ k ih =>
    intro m buf j h1 h2 hlen
    simp only [makeBlackAux]
    have h3 : 3 * m + 3 = 3 * (m + 1) := by ring
    rw [h3]
    by_cases hc : j < 3 * (m + 1)
    · rw [makeBlackAux_getD_lt k (3 * (m + 1)) _ j hc]
      have hcase : j = 3 * m ∨ j = 3 * m + 1 ∨ j = 3 * m + 2 := by omega
      rcases hcase with hv | hv | hv
      · subst hv
        rw [getD_set_ne _ _ _ _ _ (by omega), getD_set_ne _ _ _ _ _ (by omega),
          getD_set_self _ _ _ _ (by simpa using hlen)]
        have : 3 * m % 3 = 0 := by omega
        simp [this]
      · subst hv
        rw [getD_set_ne _ _ _ _ _ (by omega),
          getD_set_self _ _ _ _ (by simpa [List.length_set] using hlen)]
        have : ¬((3 * m + 1) % 3 = 0) := by omega
        simp [this]
      · subst hv
        rw [getD_set_self _ _ _ _ (by simpa [List.length_set] using hlen)]
        have : ¬((3 * m + 2) % 3 = 0) := by omega
        simp [this]
    · exact ih (m + 1) _ j (by omega) (by omega) (by simpa [List.length_set] using hlen)

theorem mkBlackBuf_length (s : Nat) : (mkBlackBuf s).length = s := by
  simp [mkBlackBuf, makeBlackAux_length]

theorem mkBlackBuf_getD (s j : Nat) (hj : j < s) :
    (mkBlackBuf s).getD j 0 = if j % 3 = 0 then 16 else 128 := by
  have h := makeBlackAux_pattern ((s + 2) / 3) 0 (List.replicate s 0) j
    (by omega) (by omega) (by simpa using hj)
  simpa [mkBlackBuf] using h

/-! ## Read-independence of the normalizer (bounds safety) -/

theorem yuv24Body_congr (r1 r2 : Nat → Nat) (n rowBytes inStart w y : Nat)
    (hr : ∀ i, i < n → r1 i = r2 i) (hrow : inStart + rowBytes ≤ n) :
    ∀ (x : Nat) (dst : List Nat),
      yuv24Body r1 rowBytes inStart w y x dst = yuv24Body r2 rowBytes inStart w y x dst := by
  intro x dst
  simp only [yuv24Body]
  split
  · rfl
  · next hcond =>
    rw [hr (inStart + x * 3) (by omega), hr (inStart + x * 3 + 1) (by omega),
      hr (inStart + x * 3 + 2) (by omega)]

theorem nv12Pix_congr (r1 r2 : Nat → Nat) (n es yPlaneSize w y : Nat)
    (hr : ∀ i, i < n → r1 i = r2 i) (hplane : yPlaneSize ≤ n) :
    ∀ (x : Nat) (dst : List Nat),
      nv12Pix r1 n es yPlaneSize w y x dst = nv12Pix r2 n es yPlaneSize w y x dst := by
  intro x dst
  simp only [nv12Pix]
  split
  · rfl
  · next hy =>
    rw [hr (y * es + x) (by omega)]
    split
    · rfl
    · next huv =>
      rw [hr (yPlaneSize + (y / 2 * es + x / 2 * 2)) (by omega),
        hr (yPlaneSize + (y / 2 * es + x / 2 * 2) + 1) (by omega)]

theorem yuyvBody_congr (r1 r2 : Nat → Nat) (n rowBytes inStart w y : Nat)
    (hr : ∀ i, i < n → r1 i = r2 i) (hrow : inStart + rowBytes ≤ n) :
    ∀ (i : Nat) (dst : List Nat),
      yuyvBody r1 rowBytes inStart w y i dst = yuyvBody r2 rowBytes inStart w y i dst := by
  intro i dst
  simp only [yuyvBody]
  split
  · rfl
  · next hcond =>
    rw [hr (inStart + 2 * i * 2) (by omega), hr (inStart + 2 * i * 2 + 1) (by omega),
      hr (inStart + 2 * i * 2 + 2) (by omega), hr (inStart + 2 * i * 2 + 3) (by omega)]

theorem rgb24Body_congr (r1 r2 : Nat → Nat) (n rowBytes inStart w y : Nat)
    (hr : ∀ i, i < n → r1 i = r2 i) (hrow : inStart + rowBytes ≤ n) :
    ∀ (x : Nat) (dst : List Nat),
      rgb24Body r1 rowBytes inStart w y x dst = rgb24Body r2 rowBytes inStart w y x dst := by
  intro x dst
  simp only [rgb24Body]
  split
  · rfl
  · next hcond =>
    rw [hr (inStart + x * 3) (by omega), hr (inStart + x * 3 + 1) (by omega),
      hr (inStart + x * 3 + 2) (by omega)]

theorem yuv24Row_congr (r1 r2 : Nat → Nat) (n rowBytes es w : Nat)
    (hr : ∀ i, i < n → r1 i = r2 i) :
    ∀ (y : Nat) (dst : List Nat),
      yuv24Row r1 n rowBytes es w y dst = yuv24Row r2 n rowBytes es w y dst := by
  intro y dst
  simp only [yuv24Row]
  split
  · rfl
  · next hrow =>
    rw [iterStep_congr (yuv24Body_congr r1 r2 n rowBytes (y * es) w y hr (by omega)) w dst]

theorem nv12Row_congr (r1 r2 : Nat → Nat) (n es yPlaneSize w : Nat)
    (hr : ∀ i, i < n → r1 i = r2 i) (hplane : yPlaneSize ≤ n) :
    ∀ (y : Nat) (dst : List Nat),
      nv12Row r1 n es yPlaneSize w y dst = nv12Row r2 n es yPlaneSize w y dst := by
  intro y dst
  simp only [nv12Row]
  rw [iterStep_congr (nv12Pix_congr r1 r2 n es yPlaneSize w y hr hplane) w dst]

theorem yuyvRow_congr (r1 r2 : Nat → Nat) (n rowBytes es w : Nat)
    (hr : ∀ i, i < n → r1 i = r2 i) :
    ∀ (y : Nat) (dst : List Nat),
      yuyvRow r1 n rowBytes es w y dst = yuyvRow r2 n rowBytes es w y dst := by
  intro y dst
  simp only [yuyvRow]
  split
  · rfl
  · next hrow =>
    rw [iterStep_congr (yuyvBody_congr r1 r2 n rowBytes (y * es) w y hr (by omega))
      ((w + 1) / 2) dst]

theorem rgb24Row_congr (r1 r2 : Nat → Nat) (n rowBytes es w : Nat)
    (hr : ∀ i, i < n → r1 i = r2 i) :
    ∀ (y : Nat) (dst : List Nat),
      rgb24Row r1 n rowBytes es w y dst = rgb24Row r2 n rowBytes es w y dst := by
  intro y dst
  simp only [rgb24Row]
  split
  · rfl
  · next hrow =>
    rw [iterStep_congr (rgb24Body_congr r1 r2 n rowBytes (y * es) w y hr (by omega)) w dst]

/-- The normalizer's result depends only on the first `n` bytes of the
source: any two read functions agreeing below the declared buffer length
produce identical results. -/
theorem convertFrameR_read_agnostic (r1 r2 : Nat → Nat) (n : Nat)
    (hr : ∀ i, i < n → r1 i = r2 i) (pixFmt : Nat) (width height stride : Int) :
    convertFrameR r1 n pixFmt width height stride
      = convertFrameR r2 n pixFmt width height stride := by
  simp only [convertFrameR]
  split
  · rfl
  · split
    · rfl
    · split
      · -- packed YUV444
        split
        · rfl
        · split
          · rfl
          · exact iterOpt_congr (yuv24Row_congr r1 r2 n _ _ _ hr) height.toNat _
      · split
        · -- NV12
          split
          · rfl
          · split
            · rfl
            · split
              · rfl
              · next hplane =>
                exact iterOpt_congr
                  (nv12Row_congr r1 r2 n _ _ _ hr (by omega)) height.toNat _
        · split
          · -- YUYV
            split
            · rfl
            · split
              · rfl
              · exact iterOpt_congr (yuyvRow_congr r1 r2 n _ _ _ hr) height.toNat _
          · split
            · -- RGB24
              split
              · rfl
              · split
                · rfl
                · exact iterOpt_congr (rgb24Row_congr r1 r2 n _ _ _ hr) height.toNat _
            · rfl

/-- Any supported-format conversion of a buffer shorter than one luma row
fails up front (the `len(src) < rowBytes` guards). -/
theorem convertFrameR_short (read : Nat → Nat) (n pixFmt : Nat)
    (width height stride : Int)
    (hfmt : pixFmt = v4l2PixFmtYUV24 ∨ pixFmt = v4l2PixFmtNV12 ∨
      pixFmt = v4l2PixFmtYUYV ∨ pixFmt = v4l2PixFmtRGB24)
    (hshort : n < width.toNat) :
    convertFrameR read n pixFmt width height stride = none := by
  simp only [convertFrameR]
  split
  · rfl
  · split
    · rfl
    · rcases hfmt with hf | hf | hf | hf <;> subst hf
      · rw [if_pos rfl, if_pos (by omega)]
      · rw [if_neg (by decide), if_pos rfl, if_pos (by omega)]
      · rw [if_neg (by decide), if_neg (by decide), if_pos rfl, if_pos (by omega)]
      · rw [if_neg (by decide), if_neg (by decide), if_neg (by decide), if_pos rfl,
          if_pos (by omega)]

/-! ## The driver loop -/

theorem outDims_pos (cfg : StreamConfig) (hW : 1 ≤ cfg.frameW) (hH : 1 ≤ cfg.frameH) :
    1 ≤ (outDims cfg).1 ∧ 1 ≤ (outDims cfg).2 := by
  unfold outDims
  split
  · exact ⟨by norm_num [cifWidth], by norm_num [cifHeight]⟩
  · exact ⟨hW, hH⟩

theorem sendBlackFrame_eq (cfg : StreamConfig) (hW : 1 ≤ cfg.frameW)
    (hH : 1 ≤ cfg.frameH) :
    sendBlackFrame cfg = some
      ⟨mkBlackBuf (((outDims cfg).1 * (outDims cfg).2 * 3).toNat),
        (outDims cfg).1, (outDims cfg).2⟩ := by
  obtain ⟨h1, h2⟩ := outDims_pos cfg hW hH
  have hpos : (0 : Int) < (outDims cfg).1 * (outDims cfg).2 * 3 := by
    have := mul_pos (mul_pos (show (0 : Int) < (outDims cfg).1 by omega)
      (show (0 : Int) < (outDims cfg).2 by omega)) (show (0 : Int) < 3 by norm_num)
    omega
  simp only [sendBlackFrame, makeBlack]
  rw [if_neg (by omega), if_neg (by omega)]

/-- Closed form of `handleDrop` for a valid session: the miss counter always
increments and, exactly from the 30th consecutive miss on, each miss cycle
pushes the neutral-fill frame at the session's output bounds. -/
theorem handleDrop_eq (cfg : StreamConfig) (hW : 1 ≤ cfg.frameW)
    (hH : 1 ≤ cfg.frameH) (m : Nat) :
    handleDrop cfg m = (m + 1,
      if 30 ≤ m + 1 then
        some ⟨mkBlackBuf (((outDims cfg).1 * (outDims cfg).2 * 3).toNat),
          (outDims cfg).1, (outDims cfg).2⟩
      else none) := by
  simp only [handleDrop, sendBlackFrame_eq cfg hW hH]
  split <;> rfl

/-- The canonical-frame invariant for an optional delivery: any pushed frame
carries exactly `width * height * 3` bytes. -/
def frameLenOk : Option Frame → Prop
  | none => True
  | some f => (f.data.length : Int) = f.width * f.height * 3

theorem processFrame_length (cfg : StreamConfig) (hW : 1 ≤ cfg.frameW)
    (hH : 1 ≤ cfg.frameH) (src : List Nat) (f : Frame)
    (h : processFrame cfg src = some f) :
    (f.data.length : Int) = f.width * f.height * 3 := by
  have hprod : (0 : Int) ≤ cfg.frameW * cfg.frameH * 3 := by
    have := mul_pos (mul_pos (show (0 : Int) < cfg.frameW by omega)
      (show (0 : Int) < cfg.frameH by omega)) (show (0 : Int) < 3 by norm_num)
    omega
  simp only [processFrame] at h
  cases hc : convertFrame src cfg.pixFmt cfg.frameW cfg.frameH cfg.stride with
  | none => simp only [hc] at h; exact Option.noConfusion h
  | some fd =>
    simp only [hc] at h
    have hfd : fd.length = (cfg.frameW * cfg.frameH * 3).toNat :=
      convertFrame_length _ _ _ _ _ _ hc
    have hfdi : (fd.length : Int) = cfg.frameW * cfg.frameH * 3 := by
      rw [hfd]; exact Int.toNat_of_nonneg hprod
    split at h
    · next hcif =>
      cases hrs : resampleYCbCr444Fill fd cfg.frameW cfg.frameH cifWidth cifHeight with
      | none => simp only [hrs] at h; exact Option.noConfusion h
      | some rs =>
        simp only [hrs] at h
        cases h
        have hres := (resample_spec fd cfg.frameW cfg.frameH cifWidth cifHeight hW hH
          (by norm_num [cifWidth]) (by norm_num [cifHeight]) (by omega)).2
          (by simp only [cifWidth, cifHeight] at hcif ⊢; omega)
        rw [hrs] at hres
        simpa [resLenOk] using hres
    · cases h
      exact hfdi

/-- Every frame the driver loop pushes satisfies the canonical-length
invariant, whether converted, resampled, or synthesized neutral fill. -/
theorem driverStep_length (cfg : StreamConfig) (hW : 1 ≤ cfg.frameW)
    (hH : 1 ≤ cfg.frameH) (m : Nat) (ev : FetchOutcome) :
    frameLenOk (driverStep cfg m ev).2 := by
  obtain ⟨h1, h2⟩ := outDims_pos cfg hW hH
  have hblack : frameLenOk (handleDrop cfg m).2 := by
    rw [handleDrop_eq cfg hW hH m]
    split
    · simp only [frameLenOk, mkBlackBuf_length]
      exact Int.toNat_of_nonneg (by
        have := mul_pos (mul_pos (show (0 : Int) < (outDims cfg).1 by omega)
          (show (0 : Int) < (outDims cfg).2 by omega)) (show (0 : Int) < 3 by norm_num)
        omega)
    · exact trivial
  cases ev with
  | tryAgain => exact trivial
  | dqErr => exact hblack
  | gotFrame src =>
    simp only [driverStep]
    cases hp : processFrame cfg src with
    | none => exact hblack
    | some f => exact processFrame_length cfg hW hH src f hp

/-! ## Closed form of the crop computation -/

theorem goTruncQ_eq_floor (q : ℚ) (hq : 0 ≤ q) : goTruncQ q = ⌊q⌋ := by
  unfold goTruncQ
  rw [Int.tdiv_eq_ediv (Rat.num_nonneg.mpr hq) (Int.ofNat_nonneg q.den)]
  exact Rat.floor_def.symm

theorem clampSeq (a x : Int) :
    (if (if a < x then a else x) < 1 then 1 else if a < x then a else x)
      = max 1 (min a x) := by
  split_ifs <;> omega

/-- The crop parameters in closed form: the cropped axis is the truncation
(floor, all quantities being nonnegative) of the ideal aspect-matching
length, clamped into `[1, source]`, and the crop is centered by halving the
remainder (truncating division of a nonnegative value). -/
theorem cropParams_closed (srcW srcH dstW dstH : Int)
    (hW : 1 ≤ srcW) (hH : 1 ≤ srcH) (hDW : 1 ≤ dstW) (hDH : 1 ≤ dstH) :
    (dstW * srcH < srcW * dstH →
      cropParams srcW srcH dstW dstH =
        ⟨max 1 (min srcW ⌊(srcH : ℚ) * ((dstW : ℚ) / (dstH : ℚ))⌋), srcH,
          (srcW - max 1 (min srcW ⌊(srcH : ℚ) * ((dstW : ℚ) / (dstH : ℚ))⌋)).tdiv 2, 0⟩)
    ∧ (srcW * dstH ≤ dstW * srcH →
      cropParams srcW srcH dstW dstH =
        ⟨srcW, max 1 (min srcH ⌊(srcW : ℚ) / ((dstW : ℚ) / (dstH : ℚ))⌋), 0,
          (srcH - max 1 (min srcH ⌊(srcW : ℚ) / ((dstW : ℚ) / (dstH : ℚ))⌋)).tdiv 2⟩) := by
  have hH0 : (0 : ℚ) < (srcH : ℚ) := by exact_mod_cast (by omega : (0 : Int) < srcH)
  have hDH0 : (0 : ℚ) < (dstH : ℚ) := by exact_mod_cast (by omega : (0 : Int) < dstH)
  have key : ((dstW : ℚ) / (dstH : ℚ) < (srcW : ℚ) / (srcH : ℚ))
      ↔ dstW * srcH < srcW * dstH := by
    rw [div_lt_div_iff₀ hDH0 hH0]
    exact_mod_cast Iff.rfl
  constructor
  · intro hlt
    have hnn : (0 : ℚ) ≤ (srcH : ℚ) * ((dstW : ℚ) / (dstH : ℚ)) :=
      mul_nonneg (le_of_lt hH0)
        (div_nonneg (by exact_mod_cast (by omega : (0 : Int) ≤ dstW)) (le_of_lt hDH0))
    simp only [cropParams, if_pos (key.mpr hlt), goTruncQ_eq_floor _ hnn, clampSeq]
  · intro hle
    have hnn : (0 : ℚ) ≤ (srcW : ℚ) / ((dstW : ℚ) / (dstH : ℚ)) :=
      div_nonneg (by exact_mod_cast (by omega : (0 : Int) ≤ srcW))
        (div_nonneg (by exact_mod_cast (by omega : (0 : Int) ≤ dstW)) (le_of_lt hDH0))
    have hnotlt : ¬((dstW : ℚ) / (dstH : ℚ) < (srcW : ℚ) / (srcH : ℚ)) := by
      rw [key]; omega
    simp only [cropParams, if_neg hnotlt, goTruncQ_eq_floor _ hnn, clampSeq]

/-! ## Claims -/

/-- C1: every frame the driver delivers on the stream channel satisfies the
canonical-frame invariant `len(Data) = Width * Height * 3`, whether it is a
converted frame, a resampled frame, or a synthesized neutral-fill frame; no
buffer violating it is ever delivered.  (`StartStream` establishes
`1 ≤ frameW` and `1 ≤ frameH` before entering the loop.) -/
theorem driverStep_canonical_invariant (cfg : StreamConfig)
    (hW : 1 ≤ cfg.frameW) (hH : 1 ≤ cfg.frameH) (m : Nat) (ev : FetchOutcome) :
    frameLenOk (driverStep cfg m ev).2 :=
  driverStep_length cfg hW hH m ev

/-- Witness for C1 at a concrete session configuration and a miss cycle that
pushes a synthesized neutral-fill frame. -/
theorem driverStep_canonical_invariant_witness :
    1 ≤ (StreamConfig.mk v4l2PixFmtYUV24 2 2 6).frameW ∧
    1 ≤ (StreamConfig.mk v4l2PixFmtYUV24 2 2 6).frameH ∧
    frameLenOk (driverStep (StreamConfig.mk v4l2PixFmtYUV24 2 2 6) 29 FetchOutcome.dqErr).2 :=
  ⟨by decide, by decide,
    driverStep_canonical_invariant (StreamConfig.mk v4l2PixFmtYUV24 2 2 6)
      (by decide) (by decide) 29 FetchOutcome.dqErr⟩

/-- C2 counterexample: the claim says an unrecognized pixel-format tag makes
the normalizer emit a full neutral-fill frame rather than failing; but the
Linux normalizer `convertFrame` returns `nil` (a miss) for any tag outside
its four supported formats — here a 2x2 frame with an unknown tag. -/
theorem convertFrame_unknown_format_is_nil :
    convertFrame (List.replicate 12 7) 0x12345678 2 2 6 = none := by decide

/-- C2 amended: for every input frame whose declared pixel-format tag is not
in the supported set, the (Linux) normalizer returns the nil/failure result,
which the driver treats as a miss; the neutral-fill downgrade for
unrecognized formats exists only in the Windows backend's `GetFrame`. -/
theorem convertFrame_unsupported_is_miss (src : List Nat) (pixFmt : Nat)
    (width height stride : Int)
    (h : pixFmt ≠ v4l2PixFmtYUV24 ∧ pixFmt ≠ v4l2PixFmtNV12 ∧
      pixFmt ≠ v4l2PixFmtYUYV ∧ pixFmt ≠ v4l2PixFmtRGB24) :
    convertFrame src pixFmt width height stride = none := by
  simp only [convertFrame, convertFrameR]
  split
  · rfl
  · split
    · rfl
    · rw [if_neg h.1, if_neg h.2.1, if_neg h.2.2.1, if_neg h.2.2.2]

/-- Witness for C2's amended theorem at pixel-format tag 0. -/
theorem convertFrame_unsupported_is_miss_witness :
    ((0 : Nat) ≠ v4l2PixFmtYUV24 ∧ (0 : Nat) ≠ v4l2PixFmtNV12 ∧
      (0 : Nat) ≠ v4l2PixFmtYUYV ∧ (0 : Nat) ≠ v4l2PixFmtRGB24) ∧
    convertFrame [1, 2, 3] 0 1 1 3 = none :=
  ⟨by decide, convertFrame_unsupported_is_miss [1, 2, 3] 0 1 1 3 (by decide)⟩

/-- C3: for any canonical frame with positive dimensions and a buffer of at
least `srcW * srcH * 3` bytes, the resampler returns the byte-identical
buffer (never upscaling) when the source fits within bounds on both axes,
and otherwise returns a frame of exactly `dstW * dstH * 3` bytes, for any
source aspect ratio. -/
theorem resample_passthrough_or_exact (src : List Nat) (srcW srcH dstW dstH : Int)
    (hW : 1 ≤ srcW) (hH : 1 ≤ srcH) (hDW : 1 ≤ dstW) (hDH : 1 ≤ dstH)
    (hlen : srcW * srcH * 3 ≤ (src.length : Int)) :
    (srcW ≤ dstW ∧ srcH ≤ dstH →
      resampleYCbCr444Fill src srcW srcH dstW dstH = some src)
    ∧ (¬(srcW ≤ dstW ∧ srcH ≤ dstH) →
      resLenOk (resampleYCbCr444Fill src srcW srcH dstW dstH) (dstW * dstH * 3)) :=
  resample_spec src srcW srcH dstW dstH hW hH hDW hDH hlen

/-- Witness for C3 at a 2x2 source and CIF bounds (the passthrough case). -/
theorem resample_passthrough_or_exact_witness :
    (1 ≤ (2 : Int)) ∧ (1 ≤ (352 : Int)) ∧ (1 ≤ (288 : Int)) ∧
    ((2 : Int) * 2 * 3 ≤ ((List.replicate 12 5 : List Nat).length : Int)) ∧
    (((2 : Int) ≤ 352 ∧ (2 : Int) ≤ 288 →
      resampleYCbCr444Fill (List.replicate 12 5) 2 2 352 288 = some (List.replicate 12 5))
    ∧ (¬((2 : Int) ≤ 352 ∧ (2 : Int) ≤ 288) →
      resLenOk (resampleYCbCr444Fill (List.replicate 12 5) 2 2 352 288) (352 * 288 * 3))) :=
  ⟨by decide, by decide, by decide, by decide,
    resample_passthrough_or_exact (List.replicate 12 5) 2 2 352 288
      (by decide) (by decide) (by decide) (by decide) (by decide)⟩

/-- C4 counterexample: at source 5x11 and bounds 4x16 the source exceeds the
bounds (`4 < 5`), is wider than the destination aspect (`4*11 < 5*16`), and
the ideal crop width is `11 * (4/16) = 2.75` — here every float64 operation
of the source is exact, so the rational model is faithful.  The claimed
formula `round(h * dstAspect)` clamped to `[1, w]` gives 3 (`cropWidthSpec`),
but the code truncates and computes crop width 2. -/
theorem cropWidth_round_claim_false :
    (4 : Int) < 5 ∧ (4 : Int) * 11 < 5 * 16 ∧
    (cropParams 5 11 4 16).cropW = 2 ∧ cropWidthSpec 5 11 4 16 = 3 := by
  refine ⟨by norm_num, by norm_num, ?_, ?_⟩
  · have h := (cropParams_closed 5 11 4 16 (by norm_num) (by norm_num) (by norm_num)
      (by norm_num)).1 (by norm_num)
    rw [h]
    have hf : ⌊((11 : Int) : ℚ) * (((4 : Int) : ℚ) / ((16 : Int) : ℚ))⌋ = 2 := by
      rw [Int.floor_eq_iff]
      norm_num
    rw [hf]
    norm_num
  · unfold cropWidthSpec
    have hr : round (((11 : Int) : ℚ) * (((4 : Int) : ℚ) / ((16 : Int) : ℚ))) = 3 := by
      rw [round_eq, Int.floor_eq_iff]
      norm_num
    rw [hr]
    norm_num

/-- C4 amended: whenever the resampler downsamples, the crop axis length is
the truncation (not the rounding) of the ideal aspect-matching length,
clamped to `[1, source]`, with the centered offset `(source - crop) / 2` and
the other axis kept in full: if `srcAspect > dstAspect` (equivalently
`dstW * srcH < srcW * dstH`), crop width is
`clamp(trunc(srcH * dstAspect), 1, srcW)` with `cropX0 = (srcW - cropW) / 2`
and full height; otherwise crop height is
`clamp(trunc(srcW / dstAspect), 1, srcH)` with `cropY0 = (srcH - cropH) / 2`
and full width.  (All truncated quantities are nonnegative, so truncation
and floor agree; float64 is modelled as exact rational arithmetic.) -/
theorem cropParams_trunc_clamp_center (srcW srcH dstW dstH : Int)
    (hW : 1 ≤ srcW) (hH : 1 ≤ srcH) (hDW : 1 ≤ dstW) (hDH : 1 ≤ dstH)
    (_hdown : ¬(srcW ≤ dstW ∧ srcH ≤ dstH)) :
    (dstW * srcH < srcW * dstH →
      cropParams srcW srcH dstW dstH =
        ⟨max 1 (min srcW ⌊(srcH : ℚ) * ((dstW : ℚ) / (dstH : ℚ))⌋), srcH,
          (srcW - max 1 (min srcW ⌊(srcH : ℚ) * ((dstW : ℚ) / (dstH : ℚ))⌋)).tdiv 2, 0⟩)
    ∧ (srcW * dstH ≤ dstW * srcH →
      cropParams srcW srcH dstW dstH =
        ⟨srcW, max 1 (min srcH ⌊(srcW : ℚ) / ((dstW : ℚ) / (dstH : ℚ))⌋), 0,
          (srcH - max 1 (min srcH ⌊(srcW : ℚ) / ((dstW : ℚ) / (dstH : ℚ))⌋)).tdiv 2⟩) :=
  cropParams_closed srcW srcH dstW dstH hW hH hDW hDH

/-- Witness for C4's amended theorem at source 5x11, bounds 4x16. -/
theorem cropParams_trunc_clamp_center_witness :
    (1 ≤ (5 : Int)) ∧ (1 ≤ (11 : Int)) ∧ (1 ≤ (4 : Int)) ∧ (1 ≤ (16 : Int)) ∧
    ¬((5 : Int) ≤ 4 ∧ (11 : Int) ≤ 16) ∧
    (((4 : Int) * 11 < 5 * 16 →
      cropParams 5 11 4 16 =
        ⟨max 1 (min 5 ⌊((11 : Int) : ℚ) * (((4 : Int) : ℚ) / ((16 : Int) : ℚ))⌋), 11,
          ((5 : Int) - max 1 (min 5 ⌊((11 : Int) : ℚ) * (((4 : Int) : ℚ) / ((16 : Int) : ℚ))⌋)).tdiv 2, 0⟩)
    ∧ ((5 : Int) * 16 ≤ 4 * 11 →
      cropParams 5 11 4 16 =
        ⟨5, max 1 (min 11 ⌊((5 : Int) : ℚ) / (((4 : Int) : ℚ) / ((16 : Int) : ℚ))⌋), 0,
          ((11 : Int) - max 1 (min 11 ⌊((5 : Int) : ℚ) / (((4 : Int) : ℚ) / ((16 : Int) : ℚ))⌋)).tdiv 2⟩)) :=
  ⟨by decide, by decide, by decide, by decide, by decide,
    cropParams_trunc_clamp_center 5 11 4 16 (by decide) (by decide) (by decide)
      (by decide) (by decide)⟩

/-- C5: in the driver's miss protocol the consecutive-miss counter resets to
zero exactly on successful delivery of a real frame (conjuncts 1-4: retry
cycles leave it unchanged, every miss increments it, success zeroes it), and
from the moment the count reaches the threshold 30, that and every
subsequent miss cycle pushes a synthesized frame at the last known output
bounds (conjunct 2/3) whose buffer is exactly the neutral fill
`Y=16, Cb=128, Cr=128` (conjuncts 5-6). -/
theorem driver_miss_protocol (cfg : StreamConfig)
    (hW : 1 ≤ cfg.frameW) (hH : 1 ≤ cfg.frameH) :
    (∀ m : Nat, driverStep cfg m FetchOutcome.tryAgain = (m, none))
    ∧ (∀ m : Nat, driverStep cfg m FetchOutcome.dqErr = (m + 1,
        if 30 ≤ m + 1 then
          some ⟨mkBlackBuf (((outDims cfg).1 * (outDims cfg).2 * 3).toNat),
            (outDims cfg).1, (outDims cfg).2⟩
        else none))
    ∧ (∀ (m : Nat) (src : List Nat), processFrame cfg src = none →
        driverStep cfg m (FetchOutcome.gotFrame src) = (m + 1,
          if 30 ≤ m + 1 then
            some ⟨mkBlackBuf (((outDims cfg).1 * (outDims cfg).2 * 3).toNat),
              (outDims cfg).1, (outDims cfg).2⟩
          else none))
    ∧ (∀ (m : Nat) (src : List Nat) (f : Frame), processFrame cfg src = some f →
        driverStep cfg m (FetchOutcome.gotFrame src) = (0, some f))
    ∧ (mkBlackBuf (((outDims cfg).1 * (outDims cfg).2 * 3).toNat)).length
        = ((outDims cfg).1 * (outDims cfg).2 * 3).toNat
    ∧ (∀ j : Nat, j < ((outDims cfg).1 * (outDims cfg).2 * 3).toNat →
        (mkBlackBuf (((outDims cfg).1 * (outDims cfg).2 * 3).toNat)).getD j 0
          = if j % 3 = 0 then 16 else 128) := by
  refine ⟨fun m => rfl, fun m => handleDrop_eq cfg hW hH m, ?_, ?_, mkBlackBuf_length _, ?_⟩
  · intro m src hp
    simp only [driverStep, hp]
    exact handleDrop_eq cfg hW hH m
  · intro m src f hp
    simp only [driverStep, hp]
  · intro j hj
    exact mkBlackBuf_getD _ j hj

/-- Witness for C5: at a 2x2 session, the 30th consecutive miss pushes the
neutral-fill frame sized to the output bounds. -/
theorem driver_miss_protocol_witness :
    1 ≤ (StreamConfig.mk v4l2PixFmtYUV24 2 2 6).frameW ∧
    1 ≤ (StreamConfig.mk v4l2PixFmtYUV24 2 2 6).frameH ∧
    driverStep (StreamConfig.mk v4l2PixFmtYUV24 2 2 6) 29 FetchOutcome.dqErr
      = (30, some ⟨mkBlackBuf 12, 2, 2⟩) :=
  ⟨by decide, by decide,
    (driver_miss_protocol (StreamConfig.mk v4l2PixFmtYUV24 2 2 6)
      (by decide) (by decide)).2.1 29⟩

/-- C6: the delivery-slot push never blocks and always keeps the freshest
frame: for any slot state, pushing A then B before any pop leaves the slot
holding exactly B, and B is the only frame a consumer can then retrieve. -/
theorem pushFrame_freshest_wins (slot : Option Frame) (a b : Frame) :
    pushFrame (pushFrame slot a) b = some b ∧
    popFrame (pushFrame (pushFrame slot a) b) = some (b, none) := by
  cases slot <;> exact ⟨rfl, rfl⟩

/-- C7: the normalizer never reads past the declared buffer length — its
result is unchanged if every byte at an index at or beyond the buffer length
is replaced by anything else (here: by zero), for every format, size and
stride; and in particular a buffer shorter than even one luma row of the
declared width makes normalization return the failure value (a miss) for
every supported format. -/
theorem convertFrame_bounds_safe :
    (∀ (read : Nat → Nat) (n pixFmt : Nat) (width height stride : Int),
      convertFrameR read n pixFmt width height stride
        = convertFrameR (fun i => if i < n then read i else 0) n pixFmt width height stride)
    ∧ (∀ (src : List Nat) (pixFmt : Nat) (width height stride : Int),
        (pixFmt = v4l2PixFmtYUV24 ∨ pixFmt = v4l2PixFmtNV12 ∨
          pixFmt = v4l2PixFmtYUYV ∨ pixFmt = v4l2PixFmtRGB24) →
        src.length < width.toNat →
        convertFrame src pixFmt width height stride = none) :=
  ⟨fun read n pixFmt width height stride =>
    convertFrameR_read_agnostic read (fun i => if i < n then read i else 0) n
      (fun i hi => by simp [hi]) pixFmt width height stride,
   fun src pixFmt width height stride hf hs =>
    convertFrameR_short _ _ _ _ _ _ hf hs⟩

/-- Witness for C7's short-buffer part: a 2-byte buffer for a declared 2x2
NV12 frame is rejected. -/
theorem convertFrame_bounds_safe_witness :
    ((0x3231564E : Nat) = v4l2PixFmtYUV24 ∨ (0x3231564E : Nat) = v4l2PixFmtNV12 ∨
      (0x3231564E : Nat) = v4l2PixFmtYUYV ∨ (0x3231564E : Nat) = v4l2PixFmtRGB24) ∧
    ([0] : List Nat).length < (2 : Int).toNat ∧
    convertFrame [0] 0x3231564E 2 2 2 = none :=
  ⟨by decide, by decide, convertFrame_bounds_safe.2 [0] 0x3231564E 2 2 2
    (by decide) (by decide)⟩

/-- C8 counterexample: the code's fixed-point conversion of the 24-bit color
pixel `(R=255, G=0, B=0)` does not give `Y=81`: the documented formula
`((66*255 + 128) >> 8) + 16 = 66 + 16` yields 82. -/
theorem rgb24_red_pixel_not_81 :
    convertFrame [255, 0, 0] v4l2PixFmtRGB24 1 1 3 ≠ some [81, 90, 240] := by decide

/-- C8 amended: normalizing the 24-bit color pixel `(R=255, G=0, B=0)` under
the fixed-point conversion with clamping yields exactly
`Y=82, Cb=90, Cr=240`. -/
theorem rgb24_red_pixel_value :
    convertFrame [255, 0, 0] v4l2PixFmtRGB24 1 1 3 = some [82, 90, 240] := by decide

/-- C9 counterexample: the spec's biplanar 4:2:0 example provides a 4x2 luma
plane plus a single 2-byte chroma pair — 10 bytes in all, while a 4x2 NV12
frame needs `4 * (2 + 2/2) = 12` bytes.  The stride check shrinks the
effective stride to `10/3 = 3 < 4` and normalization fails (a miss) instead
of succeeding with pixel values. -/
theorem nv12_spec_example_fails :
    convertFrame [10, 20, 30, 40, 50, 60, 70, 80, 100, 150] v4l2PixFmtNV12 4 2 4
      = none := by decide

/-- C9 amended: with a full chroma plane `[100, 150, 200, 250]` (12 bytes in
all), normalization succeeds; pixel (0,0) is `(Y=10, Cb=100, Cr=150)` and
pixel (1,0) shares the same chroma pair, as do all four pixels of each 2x2
block. -/
theorem nv12_full_chroma_example :
    convertFrame [10, 20, 30, 40, 50, 60, 70, 80, 100, 150, 200, 250]
      v4l2PixFmtNV12 4 2 4
      = some [10, 100, 150, 20, 100, 150, 30, 200, 250, 40, 200, 250,
              50, 100, 150, 60, 100, 150, 70, 200, 250, 80, 200, 250] := by decide

/-- C10: `SaveFramePNG` returns the invalid-frame error — before creating or
writing any file — exactly for the frames with `Width <= 0`, `Height <= 0`,
or `len(Data) != Width*Height*3`; it proceeds to encode exactly the frames
satisfying the canonical length invariant. -/
theorem saveFramePNG_rejects_invalid (f : Frame) :
    saveFramePNG f = SaveAction.errorInvalid ↔
      (f.width ≤ 0 ∨ f.height ≤ 0 ∨ (f.data.length : Int) ≠ f.width * f.height * 3) := by
  by_cases hc : f.width ≤ 0 ∨ f.height ≤ 0 ∨ (f.data.length : Int) ≠ f.width * f.height * 3
  · simp [saveFramePNG, hc]
  · simp [saveFramePNG, hc]
